import Mathlib

/-!
Verification of the HTTP/3 alternate-protocol cache and connection-pool core.

Shallow embedding of:
- the per-origin HTTP/3 health tracker and alternate-protocols cache
  (interface in src/envoy/http/alternate_protocols_cache.h; the concrete
  implementation is absent from src, so those operations are modelled from
  the specification, as marked on each definition);
- the HTTP/3 connection pool and ActiveClient state machine
  (src/source/common/http/http3/conn_pool.cc).

Times and durations are modelled as natural numbers (microseconds or an
abstract monotonic tick); machine integers in the source stay well inside
their ranges in every operation modelled here.
-/

namespace EnvoyH3

/-- Modelled from the spec: the base interval of the health tracker's broken
backoff. The concrete `Http3StatusTracker` implementation is absent from src
(only the pure-virtual interface appears in alternate_protocols_cache.h);
the spec prescribes exponential backoff, "doubling up to a ceiling". -/
def baseBrokenInterval : Nat := 300

/-- Modelled from the spec: the exponent at which the broken backoff stops
doubling ("capped at a maximum interval"). -/
def maxBackoffExponent : Nat := 10

/-- Modelled from the spec: backoff duration charged after `n` prior
consecutive breaks — a monotonically increasing function of the
consecutive-break count, doubling and capped. -/
def backoff (n : Nat) : Nat := baseBrokenInterval * 2 ^ (min n maxBackoffExponent)

/-- Modelled from the spec: `Http3HealthState` is one of Neutral,
Broken(expires_at, consecutive_breaks), Confirmed. -/
inductive Http3HealthState where
  | Neutral : Http3HealthState
  | Broken : Nat → Nat → Http3HealthState
  | Confirmed : Http3HealthState
deriving DecidableEq

/-- Modelled from the spec: `isHttp3Broken()` returns true only while
`now < expires_at`; expired Broken, Neutral and Confirmed read as not broken
(lazy expiration, no timer). Read accessors never mutate state. -/
def isHttp3Broken (now : Nat) : Http3HealthState → Bool
  | Http3HealthState.Broken e _ => decide (now < e)
  | _ => false

/-- Modelled from the spec: `isHttp3Confirmed()` is true only in the
Confirmed state. -/
def isHttp3Confirmed : Http3HealthState → Bool
  | Http3HealthState.Confirmed => true
  | _ => false

/-- Modelled from the spec: `Neutral → Broken(now + backoff(0), 1)` on first
markBroken; `Broken(_, n) → Broken(now + backoff(n), n+1)` on repeated
markBroken while still broken; an expired Broken tracker is treated as
Neutral, and Confirmed (counter reset to zero) restarts at the base backoff. -/
def markHttp3Broken (now : Nat) : Http3HealthState → Http3HealthState
  | Http3HealthState.Broken e n =>
      if now < e then Http3HealthState.Broken (now + backoff n) (n + 1)
      else Http3HealthState.Broken (now + backoff 0) 1
  | _ => Http3HealthState.Broken (now + backoff 0) 1

/-- Modelled from the spec: `markHttp3Confirmed()` unconditionally clears the
broken state and resets the break counter. -/
def markHttp3Confirmed (_s : Http3HealthState) : Http3HealthState :=
  Http3HealthState.Confirmed

/-- Embeds AlternateProtocolsCache::Origin (alternate_protocols_cache.h
lines 30-65): (scheme, hostname, port) with structural equality. -/
structure Origin where
  scheme : String
  hostname : String
  port : Nat
deriving DecidableEq

/-- Embeds AlternateProtocolsCache::AlternateProtocol
(alternate_protocols_cache.h lines 71-88): (alpn, hostname, port,
expiration) with structural equality. -/
structure AlternateProtocol where
  alpn : String
  hostname : String
  port : Nat
  expiration : Nat
deriving DecidableEq

/-- Modelled from the spec: the per-origin cache entry — an ordered,
size-bounded protocol list, a smoothed RTT (zero means unknown) and a
health tracker. The concrete cache implementation is absent from src. -/
structure CacheEntry where
  protocols : List AlternateProtocol
  srtt : Nat
  h3Status : Http3HealthState
deriving DecidableEq

/-- Modelled from the spec: the alternate-protocols cache, keyed by Origin,
with an implementation-fixed per-entry maximum protocol count. -/
structure Cache where
  maxProtocols : Nat
  entries : List (Origin × CacheEntry)
deriving DecidableEq

/-- Lookup of an origin's entry in the cache's key-value store. -/
def findEntry (l : List (Origin × CacheEntry)) (o : Origin) : Option CacheEntry :=
  match l with
  | [] => none
  | (o1, e) :: rest => if o1 = o then some e else findEntry rest o

/-- Replace an origin's entry in place, or append it if absent. -/
def setEntry (l : List (Origin × CacheEntry)) (o : Origin) (e : CacheEntry) :
    List (Origin × CacheEntry) :=
  match l with
  | [] => [(o, e)]
  | (o1, e1) :: rest => if o1 = o then (o, e) :: rest else (o1, e1) :: setEntry rest o e

/-- Modelled from the spec: `setAlternatives(origin, protocols)` replaces the
origin's protocol list wholesale, truncating to the implementation-fixed
maximum while preserving the caller-supplied order, and creates the origin's
entry if absent. -/
def setAlternatives (c : Cache) (o : Origin) (protocols : List AlternateProtocol) : Cache :=
  let truncated := protocols.take c.maxProtocols
  let entry :=
    match findEntry c.entries o with
    | some e => { e with protocols := truncated }
    | none => { protocols := truncated, srtt := 0, h3Status := Http3HealthState.Neutral }
  { c with entries := setEntry c.entries o entry }

/-- Modelled from the spec: `setSrtt(origin, rtt)` updates the smoothed RTT
for an existing entry only; it is silently ignored (a no-op that creates no
entry) if the origin is unknown. -/
def setSrtt (c : Cache) (o : Origin) (srtt : Nat) : Cache :=
  match findEntry c.entries o with
  | some e => { c with entries := setEntry c.entries o { e with srtt := srtt } }
  | none => c

/-- Modelled from the spec: `getSrtt(origin)` returns zero if the origin is
unknown. -/
def getSrtt (c : Cache) (o : Origin) : Nat :=
  match findEntry c.entries o with
  | some e => e.srtt
  | none => 0

/-- Modelled from the spec: `findAlternatives(origin)` returns the origin's
ordered protocol list, or no value if the origin is unknown. -/
def findAlternatives (c : Cache) (o : Origin) : Option (List AlternateProtocol) :=
  match findEntry c.entries o with
  | some e => some e.protocols
  | none => none

/-- Pool-visible states of an ActiveClient
(Envoy::ConnectionPool::ActiveClient::State). -/
inductive ACState where
  | Connecting : ACState
  | Ready : ACState
  | Busy : ACState
  | Draining : ACState
  | Closed : ACState
deriving DecidableEq

/-- The ActiveClient's capacity bookkeeping: pool-visible state, negotiated
concurrent-stream ceiling, and streams currently in use. -/
structure ActiveClient where
  state : ACState
  maxStreams : Nat
  usedStreams : Nat
deriving DecidableEq

/-- Spare stream capacity of a client: `max_streams - used_streams`
(truncated at zero). -/
def currentUnusedCapacity (c : ActiveClient) : Nat := c.maxStreams - c.usedStreams

/-- Modelled from the spec: `updateCapacity` (in a base class absent from
src) updates the capacity ceiling to the newly negotiated limit. -/
def updateCapacity (c : ActiveClient) (n : Nat) : ActiveClient := { c with maxStreams := n }

/-- Embeds ActiveClient::onMaxStreamsChanged (conn_pool.cc lines 46-56):
update capacity; a Busy client with nonzero spare capacity becomes Ready and
the pool is notified via onUpstreamReady; a Ready client with zero spare
capacity becomes Busy. The second component records whether
parent_.onUpstreamReady() was invoked. -/
def onMaxStreamsChanged (c : ActiveClient) (n : Nat) : ActiveClient × Bool :=
  let c1 := updateCapacity c n
  if c1.state = ACState.Busy ∧ currentUnusedCapacity c1 ≠ 0 then
    ({ c1 with state := ACState.Ready }, true)
  else if currentUnusedCapacity c1 = 0 ∧ c1.state = ACState.Ready then
    ({ c1 with state := ACState.Busy }, false)
  else (c1, false)

/-- Modelled from the spec: the pool routes new streams only to clients with
spare capacity (Ready); opening a stream consumes one unit and the client
becomes Busy when spare capacity drops to zero. The stream-accounting base
class is absent from src. -/
def streamOpen (c : ActiveClient) : ActiveClient :=
  if c.state = ACState.Ready then
    let c1 := { c with usedStreams := c.usedStreams + 1 }
    if currentUnusedCapacity c1 = 0 then { c1 with state := ACState.Busy } else c1
  else c

/-- Modelled from the spec: closing a stream frees one unit of capacity, and
a Busy client with freed spare capacity becomes eligible for queued requests
again ("retried against this or another client once capacity frees up"). The
stream-accounting base class is absent from src. -/
def streamClose (c : ActiveClient) : ActiveClient :=
  if c.usedStreams = 0 then c
  else
    let c1 := { c with usedStreams := c.usedStreams - 1 }
    if c1.state = ACState.Busy ∧ currentUnusedCapacity c1 ≠ 0 then
      { c1 with state := ACState.Ready }
    else c1

/-- Modelled from the spec: `Connecting → Ready/Busy` when the handshake
completes and the initial capacity is known. -/
def handshakeComplete (c : ActiveClient) : ActiveClient :=
  if c.state = ACState.Connecting then
    { c with state := if currentUnusedCapacity c ≠ 0 then ACState.Ready else ACState.Busy }
  else c

/-- A freshly constructed client: Connecting, initial stream ceiling, no
streams in use (conn_pool.cc lines 21-31). -/
def initClient (m : Nat) : ActiveClient :=
  { state := ACState.Connecting, maxStreams := m, usedStreams := 0 }

/-- The events of the claims: a capacity change, a stream opening, a stream
closing. -/
inductive PoolEvent where
  | maxStreams : Nat → PoolEvent
  | openStream : PoolEvent
  | closeStream : PoolEvent
deriving DecidableEq

/-- One event applied to a client. -/
def step (c : ActiveClient) : PoolEvent → ActiveClient
  | PoolEvent.maxStreams n => (onMaxStreamsChanged c n).1
  | PoolEvent.openStream => streamOpen c
  | PoolEvent.closeStream => streamClose c

/-- States reachable, under any sequence of capacity-change and
stream-open/close events, from a client whose handshake has completed (the
three event kinds act on a connected client; a Connecting client admits no
streams). -/
inductive Reachable : ActiveClient → Prop where
  | start (m : Nat) : Reachable (handshakeComplete (initClient m))
  | next (c : ActiveClient) (e : PoolEvent) : Reachable c → Reachable (step c e)

/-- The capacity invariant carried through every transition: the client is
pool-visible (Ready or Busy), Ready means spare capacity, Busy means none. -/
def clientInv (c : ActiveClient) : Prop :=
  (c.state = ACState.Ready ∨ c.state = ACState.Busy) ∧
  (c.state = ACState.Ready → c.usedStreams < c.maxStreams) ∧
  (c.state = ACState.Busy → c.maxStreams ≤ c.usedStreams)

/-- Embeds Instance::StreamOptions as used by Http3ConnPoolImpl::newStream:
whether the caller authorized HTTP/3 for this request (can_use_http3_). -/
structure StreamOptions where
  can_use_http3 : Bool
deriving DecidableEq

/-- Result of a newStream call: either the base pool's outcome, or an
assert-like caller-contract-violation report. -/
inductive NewStreamResult (α : Type) where
  | callerContractViolation : String → NewStreamResult α
  | ok : α → NewStreamResult α

/-- Embeds Http3ConnPoolImpl::newStream (conn_pool.cc lines 58-64). The
ENVOY_BUG guard is embedded with its assert semantics: an unauthorized
request aborts stream creation with a caller-contract-violation report and
never reaches FixedHttpConnPoolImpl::newStream (modelled by the opaque
`base` continuation); an authorized request is forwarded unchanged. -/
def newStream {α : Type} (base : Unit → α) (options : StreamOptions) : NewStreamResult α :=
  if options.can_use_http3 then NewStreamResult.ok (base ())
  else NewStreamResult.callerContractViolation
    "Trying to send request over h3 while alternate protocols is disabled."

/-- The client object produced by a successful client_fn call, wrapping the
created QUIC network connection. -/
structure CreatedClient (Conn : Type) where
  connection : Conn

/-- Embeds the client_fn lambda of allocateConnPool (conn_pool.cc lines
113-154): if the transport socket factory has no SSL context, fast-fail with
null before attempting a connection; if createQuicNetworkConnection yields
no connection, return null; if the connection is already Closed right after
client construction, return null. The second component counts invocations of
createQuicNetworkConnection: the pool makes at most one attempt per call and
never retries internally. -/
def client_fn (Conn : Type) (sslCtx : Option Unit) (createQuicNetworkConnection : Option Conn)
    (closedAfterConstruction : Conn → Bool) : Option (CreatedClient Conn) × Nat :=
  match sslCtx with
  | none => (none, 0)
  | some _ =>
    match createQuicNetworkConnection with
    | none => (none, 1)
    | some conn =>
      let client : CreatedClient Conn := { connection := conn }
      if closedAfterConstruction conn then (none, 1) else (some client, 1)

/-- The two codec-client kinds produced by the codec_fn lambda
(conn_pool.cc lines 155-169). -/
inductive CodecKind where
  | prod : CodecKind
  | noConnect : CodecKind
deriving DecidableEq

/-- Embeds the codec_fn lambda (conn_pool.cc lines 159-167): with the
postpone_h3_client_connect_to_next_loop runtime feature enabled the codec
client is a NoConnectCodecClientProd, otherwise a CodecClientProd. -/
def codec_fn (postponeFeature : Bool) : CodecKind :=
  if postponeFeature then CodecKind.noConnect else CodecKind.prod

/-- Number of connect() invocations made by the codec client's own
constructor: a CodecClientProd connects inline during construction (the
conn_pool.cc comment at lines 156-158 explains that NoConnectCodecClientProd
exists precisely so connect() is not called during codec client
construction). -/
def codecCtorConnects : CodecKind → Nat
  | CodecKind.prod => 1
  | CodecKind.noConnect => 0

/-- Observable outcome of constructing an ActiveClient: which codec client
it wraps, how many connect() calls happened before control returns to the
scheduling loop, and whether the deferred connect callback was scheduled. -/
structure ConstructedClient where
  codec : CodecKind
  connectsDuringConstruction : Nat
  asyncConnectCallbackScheduled : Bool
deriving DecidableEq

/-- Embeds ActiveClient::ActiveClient (conn_pool.cc lines 28-44): the
constructor schedules async_connect_callback_ for the next loop iteration
exactly when the codec client is not a CodecClientProd (the dynamic_cast at
line 38 is null); a CodecClientProd has already connected inline. -/
def constructActiveClient (postponeFeature : Bool) : ConstructedClient :=
  let k := codec_fn postponeFeature
  { codec := k
    connectsDuringConstruction := codecCtorConnects k
    asyncConnectCallbackScheduled := decide (k ≠ CodecKind.prod) }

/-- Embeds the async_connect_callback_ body (conn_pool.cc lines 32-36):
when the callback runs, connect() is invoked only if the client is still
CONNECTING; otherwise the callback is a no-op. Returns the number of
connect() invocations. -/
def asyncConnectCallbackRun (st : ACState) : Nat :=
  if st = ACState.Connecting then 1 else 0

/-- Destroying the client before the next loop iteration destroys (cancels)
the schedulable callback, so the deferred body never runs; the connect()
count is just what construction itself performed. -/
def connectsIfDestroyedBeforeNextLoop (postponeFeature : Bool) : Nat :=
  (constructActiveClient postponeFeature).connectsDuringConstruction

/-- A sample origin for concrete evaluations. -/
def sampleOrigin : Origin := { scheme := "https", hostname := "example.com", port := 443 }

/-- A sample advertised protocol for concrete evaluations. -/
def sampleProtocol (p : Nat) : AlternateProtocol :=
  { alpn := "h3", hostname := "example.com", port := p, expiration := 1000 }

/-- A sample cache entry for concrete evaluations. -/
def sampleEntry : CacheEntry :=
  { protocols := [sampleProtocol 443], srtt := 7, h3Status := Http3HealthState.Neutral }

/-- A sample one-entry cache for concrete evaluations. -/
def sampleCache : Cache := { maxProtocols := 2, entries := [(sampleOrigin, sampleEntry)] }

/-- Setting an origin's entry makes it the one found for that origin. -/
theorem findEntry_setEntry (l : List (Origin × CacheEntry)) (o : Origin) (e : CacheEntry) :
    findEntry (setEntry l o e) o = some e := by
  induction l with
  | nil => simp [setEntry, findEntry]
  | cons p rest ih =>
    obtain ⟨o1, e1⟩ := p
    by_cases h : o1 = o
    · simp [setEntry, findEntry, h]
    · simp [setEntry, findEntry, h, ih]

/-- C1: starting from Neutral, markHttp3Broken makes isHttp3Broken true
immediately and false once the clock reaches the computed expiry (lazy
expiration); a second consecutive markHttp3Broken before that expiry yields
the strictly longer backoff of break count 1, with the backoff monotone in
the consecutive-break count and capped at a maximum interval. -/
theorem http3_broken_backoff_lifecycle (t0 t1 u : Nat)
    (h1 : t1 < t0 + backoff 0) (h2 : t0 + backoff 0 ≤ u) :
    markHttp3Broken t0 Http3HealthState.Neutral = Http3HealthState.Broken (t0 + backoff 0) 1 ∧
    isHttp3Broken t0 (markHttp3Broken t0 Http3HealthState.Neutral) = true ∧
    isHttp3Broken u (markHttp3Broken t0 Http3HealthState.Neutral) = false ∧
    markHttp3Broken t1 (markHttp3Broken t0 Http3HealthState.Neutral) =
      Http3HealthState.Broken (t1 + backoff 1) 2 ∧
    backoff 0 < backoff 1 ∧
    (∀ n m, n ≤ m → backoff n ≤ backoff m) ∧
    (∀ n, backoff n ≤ backoff maxBackoffExponent) := by
  refine ⟨rfl, ?_, ?_, ?_, by decide, ?_, ?_⟩
  · have hb : 0 < backoff 0 := by decide
    simp [markHttp3Broken, isHttp3Broken]
    omega
  · simp [markHttp3Broken, isHttp3Broken]
    omega
  · simp [markHttp3Broken, h1]
  · intro n m hnm
    simp only [backoff]
    exact Nat.mul_le_mul_left _ (Nat.pow_le_pow_right (by norm_num) (min_le_min hnm (le_refl _)))
  · intro n
    simp only [backoff]
    exact Nat.mul_le_mul_left _ (Nat.pow_le_pow_right (by norm_num) (by simp [min_le_right]))

/-- C1 witness: concrete lifecycle at break time 0, re-break time 1, read
time 300. -/
theorem http3_broken_backoff_lifecycle_witness :
    (1 < 0 + backoff 0 ∧ 0 + backoff 0 ≤ 300) ∧
    isHttp3Broken 0 (markHttp3Broken 0 Http3HealthState.Neutral) = true ∧
    isHttp3Broken 300 (markHttp3Broken 0 Http3HealthState.Neutral) = false :=
  ⟨⟨by decide, by decide⟩,
   (http3_broken_backoff_lifecycle 0 1 300 (by decide) (by decide)).2.1,
   (http3_broken_backoff_lifecycle 0 1 300 (by decide) (by decide)).2.2.1⟩

/-- C5: markHttp3Confirmed in any tracker state yields Confirmed, so
isHttp3Confirmed is true and isHttp3Broken is false at every read time, and
the consecutive-break counter is reset: the next markHttp3Broken uses the
base (non-escalated) backoff interval and break count 1. -/
theorem markHttp3Confirmed_resets (s : Http3HealthState) (t : Nat) :
    markHttp3Confirmed s = Http3HealthState.Confirmed ∧
    isHttp3Confirmed (markHttp3Confirmed s) = true ∧
    isHttp3Broken t (markHttp3Confirmed s) = false ∧
    markHttp3Broken t (markHttp3Confirmed s) = Http3HealthState.Broken (t + backoff 0) 1 :=
  ⟨rfl, rfl, rfl, rfl⟩

/-- C3: after setAlternatives with a list longer than the cache's fixed
maximum, findAlternatives returns exactly the first maxProtocols entries in
the caller-supplied order (excess dropped, order preserved, no merging). -/
theorem setAlternatives_truncates_preserving_order (c : Cache) (o : Origin)
    (ps : List AlternateProtocol) (h : c.maxProtocols < ps.length) :
    findAlternatives (setAlternatives c o ps) o = some (ps.take c.maxProtocols) ∧
    (ps.take c.maxProtocols).length = c.maxProtocols := by
  constructor
  · cases hf : findEntry c.entries o <;>
      simp [findAlternatives, setAlternatives, hf, findEntry_setEntry]
  · rw [List.length_take]
    omega

/-- C3 witness: a max-2 cache keeps the first two of three protocols. -/
theorem setAlternatives_truncates_witness :
    findAlternatives (setAlternatives { maxProtocols := 2, entries := [] } sampleOrigin
        [sampleProtocol 1, sampleProtocol 2, sampleProtocol 3]) sampleOrigin =
      some [sampleProtocol 1, sampleProtocol 2] :=
  (setAlternatives_truncates_preserving_order { maxProtocols := 2, entries := [] }
    sampleOrigin [sampleProtocol 1, sampleProtocol 2, sampleProtocol 3] (by decide)).1

/-- C4: for an origin with no entry, findAlternatives returns no value,
getSrtt returns zero, and setSrtt is a no-op that creates no entry; for an
origin that already has an entry, setSrtt followed by getSrtt returns the
stored rtt. -/
theorem unknown_origin_semantics (c : Cache) (o : Origin) (rtt : Nat) :
    (findEntry c.entries o = none →
      findAlternatives c o = none ∧ getSrtt c o = 0 ∧ setSrtt c o rtt = c) ∧
    (∀ e, findEntry c.entries o = some e → getSrtt (setSrtt c o rtt) o = rtt) := by
  constructor
  · intro h
    refine ⟨?_, ?_, ?_⟩ <;> simp [findAlternatives, getSrtt, setSrtt, h]
  · intro e h
    simp [setSrtt, h, getSrtt, findEntry_setEntry]

/-- C4 witness: concrete unknown-origin reads and a known-origin rtt
round trip. -/
theorem unknown_origin_semantics_witness :
    findAlternatives { maxProtocols := 2, entries := [] } sampleOrigin = none ∧
    setSrtt { maxProtocols := 2, entries := [] } sampleOrigin 50 =
      { maxProtocols := 2, entries := [] } ∧
    getSrtt (setSrtt sampleCache sampleOrigin 50) sampleOrigin = 50 :=
  ⟨((unknown_origin_semantics { maxProtocols := 2, entries := [] } sampleOrigin 50).1 rfl).1,
   ((unknown_origin_semantics { maxProtocols := 2, entries := [] } sampleOrigin 50).1 rfl).2.2,
   (unknown_origin_semantics sampleCache sampleOrigin 50).2 sampleEntry (by decide)⟩

/-- The post-handshake start state satisfies the capacity invariant. -/
theorem clientInv_start (m : Nat) : clientInv (handshakeComplete (initClient m)) := by
  by_cases h : m = 0
  · subst h
    simp [clientInv, handshakeComplete, initClient, currentUnusedCapacity]
  · simp [clientInv, handshakeComplete, initClient, currentUnusedCapacity, h]
    omega

/-- Every capacity-change, stream-open and stream-close event preserves the
capacity invariant. -/
theorem clientInv_step (c : ActiveClient) (e : PoolEvent) (h : clientInv c) :
    clientInv (step c e) := by
  obtain ⟨st, mx, us⟩ := c
  obtain ⟨hrb, hr, hb⟩ := h
  cases e <;> cases st <;>
    simp_all [step, onMaxStreamsChanged, updateCapacity, currentUnusedCapacity, clientInv,
      streamOpen, streamClose] <;>
    split_ifs <;> simp_all <;> omega

/-- C2: for every state reachable from a post-handshake client under any
sequence of capacity-change, stream-open and stream-close events, the state
is Ready exactly when used_streams < max_streams, and Busy implies
used_streams >= max_streams. -/
theorem active_client_capacity_invariant (c : ActiveClient) (h : Reachable c) :
    (c.state = ACState.Ready ↔ c.usedStreams < c.maxStreams) ∧
    (c.state = ACState.Busy → c.maxStreams ≤ c.usedStreams) := by
  have hinv : clientInv c := by
    induction h with
    | start m => exact clientInv_start m
    | next c e _ ih => exact clientInv_step c e ih
  obtain ⟨hrb, hr, hb⟩ := hinv
  refine ⟨⟨hr, ?_⟩, hb⟩
  intro hlt
  rcases hrb with h1 | h1
  · exact h1
  · have := hb h1
    omega

/-- C2 witness: the invariant evaluated at the freshly connected two-stream
client. -/
theorem active_client_capacity_invariant_witness :
    ((handshakeComplete (initClient 2)).state = ACState.Ready ↔
      (handshakeComplete (initClient 2)).usedStreams <
        (handshakeComplete (initClient 2)).maxStreams) ∧
    ((handshakeComplete (initClient 2)).state = ACState.Busy →
      (handshakeComplete (initClient 2)).maxStreams ≤
        (handshakeComplete (initClient 2)).usedStreams) :=
  active_client_capacity_invariant (handshakeComplete (initClient 2)) (Reachable.start 2)

/-- C6 (amended): onMaxStreamsChanged moves a Busy client with nonzero
resulting spare capacity to Ready and notifies the pool (onUpstreamReady),
moves a Ready client with zero resulting spare capacity to Busy; and among
the pool events, capacity change and stream close are the only ones that can
move a client out of Busy. -/
theorem onMaxStreamsChanged_transitions (c : ActiveClient) (n : Nat) :
    (c.state = ACState.Busy → currentUnusedCapacity (updateCapacity c n) ≠ 0 →
      onMaxStreamsChanged c n = ({ updateCapacity c n with state := ACState.Ready }, true)) ∧
    (c.state = ACState.Ready → currentUnusedCapacity (updateCapacity c n) = 0 →
      onMaxStreamsChanged c n = ({ updateCapacity c n with state := ACState.Busy }, false)) ∧
    (∀ e, c.state = ACState.Busy → (step c e).state ≠ ACState.Busy →
      (∃ m, e = PoolEvent.maxStreams m) ∨ e = PoolEvent.closeStream) := by
  obtain ⟨st, mx, us⟩ := c
  refine ⟨?_, ?_, ?_⟩
  · intro h1 h2
    subst h1
    simp_all [onMaxStreamsChanged, updateCapacity, currentUnusedCapacity]
  · intro h1 h2
    subst h1
    simp_all [onMaxStreamsChanged, updateCapacity, currentUnusedCapacity]
  · intro e h1 h2
    subst h1
    cases e with
    | maxStreams m => exact Or.inl ⟨m, rfl⟩
    | openStream => simp [step, streamOpen] at h2
    | closeStream => exact Or.inr rfl

/-- C6 witness: raising the limit of a saturated Busy client to 4 makes it
Ready and notifies the pool. -/
theorem onMaxStreamsChanged_transitions_witness :
    onMaxStreamsChanged { state := ACState.Busy, maxStreams := 2, usedStreams := 2 } 4 =
      ({ state := ACState.Ready, maxStreams := 4, usedStreams := 2 }, true) :=
  (onMaxStreamsChanged_transitions
    { state := ACState.Busy, maxStreams := 2, usedStreams := 2 } 4).1 rfl (by decide)

/-- C6 counterexample: a reachable saturated Busy client is moved out of
Busy by a stream-close event, so onMaxStreamsChanged is not the only path
out of Busy after construction. -/
theorem busy_exit_not_only_via_onMaxStreamsChanged :
    Reachable { state := ACState.Busy, maxStreams := 2, usedStreams := 2 } ∧
    (streamClose { state := ACState.Busy, maxStreams := 2, usedStreams := 2 }).state =
      ACState.Ready := by
  constructor
  · have h : Reachable (step (step (handshakeComplete (initClient 2)) PoolEvent.openStream)
        PoolEvent.openStream) :=
      Reachable.next _ _ (Reachable.next _ _ (Reachable.start 2))
    have he : step (step (handshakeComplete (initClient 2)) PoolEvent.openStream)
        PoolEvent.openStream = { state := ACState.Busy, maxStreams := 2, usedStreams := 2 } := by
      decide
    rw [he] at h
    exact h
  · decide

/-- C10: onMaxStreamsChanged on a client that is neither Busy nor Ready only
updates the capacity ceiling (state and used count unchanged, pool not
notified); in every state it preserves used_streams, sets max_streams to the
new limit, and the only state changes it ever makes are Busy to Ready and
Ready to Busy. -/
theorem onMaxStreamsChanged_frame (c : ActiveClient) (n : Nat) :
    (c.state ≠ ACState.Busy → c.state ≠ ACState.Ready →
      onMaxStreamsChanged c n = (updateCapacity c n, false)) ∧
    (onMaxStreamsChanged c n).1.usedStreams = c.usedStreams ∧
    (onMaxStreamsChanged c n).1.maxStreams = n ∧
    ((onMaxStreamsChanged c n).1.state = c.state ∨
      (c.state = ACState.Busy ∧ (onMaxStreamsChanged c n).1.state = ACState.Ready) ∨
      (c.state = ACState.Ready ∧ (onMaxStreamsChanged c n).1.state = ACState.Busy)) := by
  obtain ⟨st, mx, us⟩ := c
  cases st <;>
    simp [onMaxStreamsChanged, updateCapacity, currentUnusedCapacity] <;>
    split_ifs <;> simp_all

/-- C10 witness: a Connecting client only gets its ceiling updated. -/
theorem onMaxStreamsChanged_frame_witness :
    onMaxStreamsChanged { state := ACState.Connecting, maxStreams := 5, usedStreams := 0 } 7 =
      (updateCapacity { state := ACState.Connecting, maxStreams := 5, usedStreams := 0 } 7,
        false) :=
  (onMaxStreamsChanged_frame
    { state := ACState.Connecting, maxStreams := 5, usedStreams := 0 } 7).1
    (by decide) (by decide)

/-- C8: a newStream call whose options do not authorize HTTP/3 is rejected
immediately with an assert-like caller-contract-violation report and never
reaches the base pool; an authorized call goes to the base pool unchanged,
so under the authorization precondition the error branch is unreachable. -/
theorem newStream_unauthorized_guard {α : Type} (base : Unit → α) :
    newStream base { can_use_http3 := false } =
      NewStreamResult.callerContractViolation
        "Trying to send request over h3 while alternate protocols is disabled." ∧
    newStream base { can_use_http3 := true } = NewStreamResult.ok (base ()) :=
  ⟨rfl, rfl⟩

/-- C9: client creation returns null synchronously when the transport socket
factory has no SSL context (without even attempting a connection) and when
QUIC network-connection construction yields no connection; in every case at
most one connection-creation attempt is made (no internal retry). -/
theorem client_fn_null_on_failure (Conn : Type) (create : Option Conn)
    (closed : Conn → Bool) :
    client_fn Conn none create closed = (none, 0) ∧
    client_fn Conn (some ()) none closed = (none, 1) ∧
    (∀ ssl, (client_fn Conn ssl create closed).2 ≤ 1) := by
  refine ⟨rfl, rfl, ?_⟩
  intro ssl
  cases ssl with
  | none => simp [client_fn]
  | some u =>
    cases create with
    | none => simp [client_fn]
    | some conn =>
      simp only [client_fn]
      split <;> simp

/-- C7 counterexample: with the postpone-connect runtime feature disabled
the codec client is a CodecClientProd, which connects inline during
construction, before control returns to the scheduling loop, and no deferred
callback is scheduled. -/
theorem inline_connect_when_feature_disabled :
    (constructActiveClient false).connectsDuringConstruction ≠ 0 ∧
    (constructActiveClient false).asyncConnectCallbackScheduled = false := by
  decide

/-- C7 (amended): with the postpone-connect runtime feature enabled,
constructing an ActiveClient performs no connect before control returns to
the scheduling loop and schedules the deferred connect callback; if the
client is destroyed before the next iteration, connect is never invoked; the
deferred task connects only while the client is still Connecting and is a
no-op in any other state. -/
theorem deferred_connect_postponed (st : ACState) (h : st ≠ ACState.Connecting) :
    (constructActiveClient true).connectsDuringConstruction = 0 ∧
    (constructActiveClient true).asyncConnectCallbackScheduled = true ∧
    connectsIfDestroyedBeforeNextLoop true = 0 ∧
    asyncConnectCallbackRun ACState.Connecting = 1 ∧
    asyncConnectCallbackRun st = 0 := by
  refine ⟨rfl, rfl, rfl, rfl, ?_⟩
  simp [asyncConnectCallbackRun, h]

/-- C7 witness: the deferred task is a no-op on a Ready client. -/
theorem deferred_connect_postponed_witness :
    (constructActiveClient true).connectsDuringConstruction = 0 ∧
    asyncConnectCallbackRun ACState.Ready = 0 :=
  ⟨(deferred_connect_postponed ACState.Ready (by decide)).1,
   (deferred_connect_postponed ACState.Ready (by decide)).2.2.2.2⟩

end EnvoyH3
